import Mathlib

/-!
The k8swatch event filter, alert forwarding and the retrying worker.

A shallow embedding of `pkg/handlers/alertmanager.go` and of the worker part of
`pkg/controller/controller.go`.

* Go `map[string]struct{}` is a `Finset String`; `len m` is `m.card`.
* Go `map[string]string` built from a literal is the list of its key/value pairs.
* Side effects (queue calls, cache lookups, HTTP posts, glog lines,
  `runtime.HandleError`) are appended to `World.trace` in program order.
* `strings.ToLower`, `json.Marshal` and the answer of the alert gateway are
  parameters of the model (`Env`); every theorem holds for all of them.
-/

namespace K8swatch

/-! ## Data model -/

/-- Go `error` values are represented by their message. -/
abbrev Error := String

/-- The fields of `v1.ObjectReference` read by the handler. -/
structure ObjectReference where
  Kind : String
  Namespace : String
  Name : String
  FieldPath : String
deriving DecidableEq

/-- The fields of `v1.EventSource` read by the handler. -/
structure EventSource where
  Component : String
  Host : String
deriving DecidableEq

/-- The fields of `v1.Event` read by the handler (`Type_` stands for the Go field `Type`). -/
structure Event where
  Namespace : String
  Name : String
  InvolvedObject : ObjectReference
  Reason : String
  Message : String
  Source : EventSource
  Type_ : String
deriving DecidableEq

/-- A value of Go type `interface{}` as the handler sees it: either a
`*v1.Event` or a value of some other dynamic type. -/
inductive Obj where
  | event (e : Event)
  | other (description : String)
deriving DecidableEq

/-- The `Alert` struct of alertmanager.go. -/
structure Alert where
  Labels : List (String × String)
  Annotations : List (String × String)
  GeneratorURL : String
deriving DecidableEq

/-- The `Alerts` slice type of alertmanager.go. -/
abbrev Alerts := List Alert

/-- The `AlertManager` struct of alertmanager.go. -/
structure AlertManager where
  endpoint : String
  kindFilters : Finset String
  typeFilters : Finset String
  reasonFilters : Finset String

/-- The `Config` struct of alertmanager.go. -/
structure Config where
  Kinds : List String
  Types : List String
  Reasons : List String
deriving DecidableEq

/-- The part of `http.Response` read by `fire`. -/
structure Response where
  StatusCode : Int
  Status : String
deriving DecidableEq

/-- The result triple `(item, exists, err)` of `indexer.GetByKey`. -/
structure Lookup where
  item : Obj
  found : Bool
  err : Option Error
deriving DecidableEq

/-- One observable call made by the program. -/
inductive Call where
  | queueGet
  | queueDone (key : String)
  | queueForget (key : String)
  | queueNumRequeues (key : String)
  | queueAddRateLimited (key : String)
  | getByKey (key : String)
  | objectCreated (obj : Obj)
  | fire (alerts : Alerts)
  | httpPost (url : String) (contentType : String) (body : String)
  | glogInfof (format : String)
  | glogErrorf (format : String)
  | handleError (err : Error)
deriving DecidableEq

/-- The library functions and the outside world the program talks to.
`post n url contentType body` is the outcome of the `n`-th `http.Post`
(counting from 0) of the run. -/
structure Env where
  toLower : String → String
  marshal : Alerts → Except Error String
  post : Nat → String → String → String → Except Error Response

/-- Modelled from the spec: the rate limited work queue is the `workqueue` of
client-go, which is not among the sources. Section 4.3 of the spec gives its
contract: `add` is a no-op for a key already queued, a key re-added while in
progress is queued again when it is marked done, `get` hands out a key or
reports shutdown, `addRateLimited` re-enqueues the key and increments its retry
counter, `forget` clears the counter. `failures` is that counter
(`NumRequeues`). The backoff delay itself is not modelled: the delayed re-add
of `addRateLimited` is taken to have fired when the call returns. -/
structure WorkQueue where
  queue : List String
  dirty : Finset String
  processing : Finset String
  shuttingDown : Bool
  failures : String → Nat

/-- The mutable state around one worker: the work queue, the cache of the informer
(`indexer`), the number of HTTP posts made so far and the trace of calls. -/
structure World where
  queue : WorkQueue
  indexer : String → Lookup
  posts : Nat
  trace : List Call

/-- Append one call to the trace. -/
def World.record (w : World) (c : Call) : World :=
  { w with trace := w.trace ++ [c] }

/-- The calls made between world `w` and a later world `w2`. -/
def callsSince (w w2 : World) : List Call :=
  w2.trace.drop w.trace.length

/-! ## The work queue -/

/-- Modelled from the spec: `queue.Add` of the work queue (client-go, not among
the sources): no-op when shutting down or when the key is already waiting;
a key in progress is only marked dirty. -/
def WorkQueue.Add (q : WorkQueue) (item : String) : WorkQueue :=
  if q.shuttingDown then q
  else if item ∈ q.dirty then q
  else if item ∈ q.processing then { q with dirty := insert item q.dirty }
  else { q with dirty := insert item q.dirty, queue := q.queue ++ [item] }

/-- Modelled from the spec: `queue.Get` of the work queue (client-go, not among
the sources). `none` means the caller stays blocked (empty queue, no
shutdown); `some (key, true, _)` reports shutdown; otherwise the first waiting
key is handed out and marked in progress. -/
def WorkQueue.Get (q : WorkQueue) : Option (String × Bool × WorkQueue) :=
  match q.queue with
  | [] => if q.shuttingDown then some ("", true, q) else none
  | item :: rest =>
    some (item, false,
      { q with queue := rest, processing := insert item q.processing,
               dirty := q.dirty.erase item })

/-- Modelled from the spec: `queue.Done` of the work queue (client-go, not among
the sources): the key is no longer in progress, and is queued again if it was
re-added meanwhile. -/
def WorkQueue.Done (q : WorkQueue) (item : String) : WorkQueue :=
  let q1 := { q with processing := q.processing.erase item }
  if item ∈ q1.dirty then { q1 with queue := q1.queue ++ [item] } else q1

/-- Modelled from the spec: `queue.Forget` of the work queue (client-go, not
among the sources): clears the retry counter of the key. -/
def WorkQueue.Forget (q : WorkQueue) (item : String) : WorkQueue :=
  { q with failures := Function.update q.failures item 0 }

/-- Modelled from the spec: `queue.NumRequeues` of the work queue (client-go,
not among the sources): the retry counter of the key. -/
def WorkQueue.NumRequeues (q : WorkQueue) (item : String) : Nat :=
  q.failures item

/-- Modelled from the spec: `queue.AddRateLimited` of the work queue (client-go,
not among the sources): increments the retry counter of the key and re-adds
the key (after a backoff delay that is not modelled). -/
def WorkQueue.AddRateLimited (q : WorkQueue) (item : String) : WorkQueue :=
  WorkQueue.Add
    { q with failures := Function.update q.failures item (q.failures item + 1) } item

/-! ## pkg/handlers/alertmanager.go -/

namespace handlers

/-- The constant `alertPath`. -/
def alertPath : String := "/api/v1/alerts"

/-- The constant `contentType`. -/
def contentType : String := "application/json"

/-- The loops of `New` that fill one filter map: every configured string is
inserted in lower case. -/
def filterSet (env : Env) (xs : List String) : Finset String :=
  xs.foldl (fun m x => insert (env.toLower x) m) ∅

/-- The function `New` of alertmanager.go. -/
def New (env : Env) (alertmanagerURL : String) (config : Config) : AlertManager :=
  { endpoint := alertmanagerURL ++ alertPath
    kindFilters := filterSet env config.Kinds
    typeFilters := filterSet env config.Types
    reasonFilters := filterSet env config.Reasons }

/-- The method `AlertManager.fire`: the returned error (`none` is the Go `nil`)
and the world after the call. -/
def fire (env : Env) (a : AlertManager) (alerts : Alerts) (w : World) :
    Option Error × World :=
  let w0 := w.record (Call.fire alerts)
  match env.marshal alerts with
  | .error err => (some err, w0)
  | .ok data =>
    let w1 := { w0.record (Call.httpPost a.endpoint contentType data) with
                posts := w0.posts + 1 }
    match env.post w0.posts a.endpoint contentType data with
    | .error err => (some err, w1)
    | .ok resp =>
      if resp.StatusCode ≠ 200 then (some ("fire response " ++ resp.Status), w1)
      else (none, w1)

/-- The label map literal built by `ObjectCreated`. -/
def labelsOf (event : Event) : List (String × String) :=
  let alertName := event.InvolvedObject.Kind ++ " " ++ event.Reason
  [ ("alertname", alertName),
    ("namespace", event.Namespace),
    ("name", event.Name),
    ("component", event.Source.Component),
    ("host", event.Source.Host),
    ("reason", event.Reason),
    ("kind", event.InvolvedObject.Kind),
    ("message", event.Message),
    ("client", "k8swatch"),
    ("level", event.Type_),
    ("involvedObjectNamespace", event.InvolvedObject.Namespace),
    ("involvedObjectName", event.InvolvedObject.Name),
    ("fieldPath", event.InvolvedObject.FieldPath) ]

/-- Lines 71 and 74-77 of `ObjectCreated`: the kind test `ok1`. -/
def ok1 (env : Env) (a : AlertManager) (event : Event) : Bool :=
  let kind := env.toLower event.InvolvedObject.Kind
  let ok1 : Bool := decide (a.kindFilters.card = 0)
  if !ok1 then decide (kind ∈ a.kindFilters) else ok1

/-- Lines 72 and 78-81 of `ObjectCreated`: the type test `ok2`. -/
def ok2 (env : Env) (a : AlertManager) (event : Event) : Bool :=
  let typ := env.toLower event.Type_
  let ok2 : Bool := decide (a.typeFilters.card = 0)
  if !ok2 then decide (typ ∈ a.typeFilters) else ok2

/-- Lines 73 and 82-85 of `ObjectCreated`: the reason test `ok3`. -/
def ok3 (env : Env) (a : AlertManager) (event : Event) : Bool :=
  let reason := env.toLower event.Reason
  let ok3 : Bool := decide (a.reasonFilters.card = 0)
  if !ok3 then decide (reason ∈ a.reasonFilters) else ok3

/-- The method `AlertManager.ObjectCreated`. It returns nothing in Go; here it
returns the world after the call. -/
def ObjectCreated (env : Env) (a : AlertManager) (obj : Obj) (w : World) : World :=
  let w := w.record (Call.objectCreated obj)
  match obj with
  | .other _ => w.record (Call.glogInfof "object %v is not a *v1.Event")
  | .event event =>
    if !ok1 env a event && !ok2 env a event && !ok3 env a event then
      w.record (Call.glogInfof "event %v ignored to send alert")
    else
      let alerts : Alerts :=
        [ { Labels := labelsOf event, Annotations := [], GeneratorURL := "" } ]
      match fire env a alerts w with
      | (some _, w1) => w1.record (Call.glogErrorf "failed to send alert %v to %s")
      | (none, w1) => w1.record (Call.glogInfof "Successfully send alert: %v")

end handlers

/-! ## pkg/controller/controller.go -/

namespace controller

/-- The `Controller` struct: the queue and the indexer live in `World`, the
Kubernetes client and the informer are not used by the worker. -/
structure Controller where
  eventHandler : AlertManager

/-- The method `Controller.processItem`. -/
def processItem (env : Env) (c : Controller) (key : String) (w : World) :
    Option Error × World :=
  let w := w.record (Call.getByKey key)
  let r := w.indexer key
  match r.err with
  | some err => (some err, w.record (Call.glogErrorf "Fetching obj with key %s failed: %v"))
  | none =>
    if !r.found then
      (none, w.record (Call.glogInfof "Event %s does not exist anymore"))
    else
      (none, handlers.ObjectCreated env c.eventHandler r.item w)

/-- The method `Controller.processNextItem`; `none` when the worker stays
blocked in `queue.Get`. The deferred `queue.Done(key)` runs last. -/
def processNextItem (env : Env) (c : Controller) (w : World) : Option (Bool × World) :=
  let w := w.record Call.queueGet
  match w.queue.Get with
  | none => none
  | some (key, quit, q) =>
    if quit then some (false, w)
    else
      let w := { w with queue := q }
      let (err, w) := processItem env c key w
      let w :=
        match err with
        | none => { w.record (Call.queueForget key) with queue := w.queue.Forget key }
        | some err =>
          let w := w.record (Call.queueNumRequeues key)
          if w.queue.NumRequeues key < 5 then
            let w := w.record (Call.glogErrorf "Error processing %s (will retry): %v")
            { w.record (Call.queueAddRateLimited key) with
              queue := w.queue.AddRateLimited key }
          else
            let w := w.record (Call.glogErrorf "Error processing %s (give up): %v")
            let w := { w.record (Call.queueForget key) with queue := w.queue.Forget key }
            w.record (Call.handleError err)
      some (true, { w.record (Call.queueDone key) with queue := w.queue.Done key })

/-- Where a worker is after some iterations of its loop. -/
inductive Worker where
  | exited (w : World)
  | waiting (w : World)
  | running (w : World)

/-- The method `Controller.runWorker`: `for c.processNextItem() {}`, unfolded
for at most `fuel` iterations. `exited`: the loop ended; `waiting`: the worker
is blocked in `queue.Get`; `running`: the loop is still going after `fuel`
iterations. -/
def runWorker (env : Env) (c : Controller) : Nat → World → Worker
  | 0, w => Worker.running w
  | fuel + 1, w =>
    match processNextItem env c w with
    | none => Worker.waiting w
    | some (false, w1) => Worker.exited w1
    | some (true, w1) => runWorker env c fuel w1

end controller

/-! ## Observations on traces -/

/-- The alert collections passed to `fire`, in call order. -/
def firedAlerts (calls : List Call) : List Alerts :=
  calls.filterMap (fun c => match c with
    | Call.fire alerts => some alerts
    | _ => none)

/-- The `(url, contentType, body)` triples passed to `http.Post`, in call order. -/
def posted (calls : List Call) : List (String × String × String) :=
  calls.filterMap (fun c => match c with
    | Call.httpPost url ct body => some (url, ct, body)
    | _ => none)

/-- The objects handed to `ObjectCreated`, in call order. -/
def handled (calls : List Call) : List Obj :=
  calls.filterMap (fun c => match c with
    | Call.objectCreated obj => some obj
    | _ => none)

/-- The calls by which `processNextItem` classifies an outcome:
`AddRateLimited`, `Forget` and `runtime.HandleError`, in call order. -/
def retryCalls (calls : List Call) : List Call :=
  calls.filter (fun c => match c with
    | Call.queueAddRateLimited _ => true
    | Call.queueForget _ => true
    | Call.handleError _ => true
    | _ => false)

/-- The alert `ObjectCreated` builds for an event. -/
def alertOf (event : Event) : Alert :=
  { Labels := handlers.labelsOf event, Annotations := [], GeneratorURL := "" }

/-- Calls that belong to the lookup and the handler, not to the retry logic. -/
def isHandlerCall : Call → Bool
  | Call.getByKey _ => true
  | Call.objectCreated _ => true
  | Call.fire _ => true
  | Call.httpPost _ _ _ => true
  | Call.glogInfof _ => true
  | Call.glogErrorf _ => true
  | _ => false

/-- The calls `ObjectCreated` makes on an event, in full. -/
def eventCalls (env : Env) (a : AlertManager) (e : Event) (w : World) : List Call :=
  if (handlers.ok1 env a e || handlers.ok2 env a e || handlers.ok3 env a e) = true then
    [Call.objectCreated (Obj.event e), Call.fire [alertOf e]] ++
      (match env.marshal [alertOf e] with
        | .error _ => []
        | .ok data => [Call.httpPost a.endpoint handlers.contentType data]) ++
      [if (handlers.fire env a [alertOf e] (w.record (Call.objectCreated (Obj.event e)))).1.isSome
        then Call.glogErrorf "failed to send alert %v to %s"
        else Call.glogInfof "Successfully send alert: %v"]
  else
    [Call.objectCreated (Obj.event e), Call.glogInfof "event %v ignored to send alert"]

/-- The world in which `processNextItem` calls `processItem`. -/
def afterGet (w : World) (q : WorkQueue) : World :=
  { w with queue := q, trace := w.trace ++ [Call.queueGet] }

/-- The world a worker is in. -/
def controller.Worker.world : controller.Worker → World
  | controller.Worker.exited w => w
  | controller.Worker.waiting w => w
  | controller.Worker.running w => w

/-- The calls of one attempt on a key whose cache lookup fails while the key is
still retried. -/
def retriedAttempt (key : String) : List Call :=
  [Call.queueGet, Call.getByKey key,
   Call.glogErrorf "Fetching obj with key %s failed: %v",
   Call.queueNumRequeues key,
   Call.glogErrorf "Error processing %s (will retry): %v",
   Call.queueAddRateLimited key, Call.queueDone key]

/-- The calls of one attempt on a key whose cache lookup fails when the key is
given up. -/
def abandonedAttempt (key : String) (err : Error) : List Call :=
  [Call.queueGet, Call.getByKey key,
   Call.glogErrorf "Fetching obj with key %s failed: %v",
   Call.queueNumRequeues key,
   Call.glogErrorf "Error processing %s (give up): %v",
   Call.queueForget key, Call.handleError err, Call.queueDone key]

/-! ## Sample inputs -/

/-- Lower-casing of the ASCII letters, the instance of `strings.ToLower` used
in the sample runs. -/
def asciiLower (s : String) : String :=
  String.mk (s.data.map Char.toLower)

/-- A stand-in for `json.Marshal` in the sample runs: it never fails. -/
def sampleMarshal (alerts : Alerts) : Except Error String :=
  Except.ok (String.intercalate ","
    (alerts.map (fun a => String.intercalate ";" (a.Labels.map (fun p => p.1 ++ "=" ++ p.2)))))

/-- A gateway that answers HTTP 500 to the first three posts and 200 afterwards. -/
def flakyGateway (n : Nat) (_url _ct _body : String) : Except Error Response :=
  if n < 3 then Except.ok { StatusCode := 500, Status := "500 Internal Server Error" }
  else Except.ok { StatusCode := 200, Status := "200 OK" }

/-- The environment of the sample runs. -/
def sampleEnv : Env :=
  { toLower := asciiLower, marshal := sampleMarshal, post := flakyGateway }

/-- The event of the scenario: a failed pod. -/
def podFailed : Event :=
  { Namespace := "ns1", Name := "pod-a"
    InvolvedObject := { Kind := "Pod", Namespace := "ns1", Name := "pod-a", FieldPath := "" }
    Reason := "Failed", Message := "", Source := { Component := "kubelet", Host := "node-1" }
    Type_ := "Warning" }

/-- The policy of the scenario: `reasons: ["Failed"]`. -/
def reasonsFailed : Config :=
  { Kinds := [], Types := [], Reasons := ["Failed"] }

/-- A policy with three non-empty sets. -/
def strictConfig : Config :=
  { Kinds := ["Node"], Types := ["Normal"], Reasons := ["Started"] }

/-- A queue holding the single key `ns1/pod-a`, all retry counters zero. -/
def sampleQueue : WorkQueue :=
  { queue := ["ns1/pod-a"], dirty := {"ns1/pod-a"}, processing := ∅
    shuttingDown := false, failures := fun _ => 0 }

/-- A world whose cache holds the failed pod under `ns1/pod-a`. -/
def sampleWorld : World :=
  { queue := sampleQueue
    indexer := fun k =>
      if k = "ns1/pod-a" then { item := Obj.event podFailed, found := true, err := none }
      else { item := Obj.other "nil", found := false, err := none }
    posts := 0, trace := [] }

/-- A world whose cache lookup fails for every key. -/
def brokenCacheWorld : World :=
  { sampleWorld with
    indexer := fun _ => { item := Obj.other "nil", found := false, err := some "cache error" } }

/-- A world whose cache is empty. -/
def emptyCacheWorld : World :=
  { sampleWorld with
    indexer := fun _ => { item := Obj.other "nil", found := false, err := none } }

/-- A world whose queue is empty and shut down. -/
def shutDownWorld : World :=
  { sampleWorld with
    queue := { sampleQueue with queue := [], dirty := ∅, shuttingDown := true } }

/-- The controller of the sample runs, with the policy `reasons: ["Failed"]`. -/
def sampleController : controller.Controller :=
  { eventHandler := handlers.New sampleEnv "http://127.0.0.1:9093" reasonsFailed }

/-! ## Lemmas on the filter sets -/

open handlers controller

theorem foldl_insert_eq (f : String → String) (xs : List String) (s : Finset String) :
    xs.foldl (fun m x => insert (f x) m) s = s ∪ (xs.map f).toFinset := by
  induction xs generalizing s with
  | nil => simp
  | cons x xs ih =>
    simp only [List.foldl_cons, ih, List.map_cons, List.toFinset_cons]
    ext y
    simp only [Finset.mem_union, Finset.mem_insert, List.mem_toFinset]
    tauto

theorem mem_filterSet (env : Env) (xs : List String) (x : String) :
    x ∈ filterSet env xs ↔ ∃ k ∈ xs, env.toLower k = x := by
  simp [filterSet, foldl_insert_eq]

theorem filterSet_card_eq_zero (env : Env) (xs : List String) :
    (filterSet env xs).card = 0 ↔ xs = [] := by
  rw [Finset.card_eq_zero]
  constructor
  · intro h
    cases xs with
    | nil => rfl
    | cons x xs =>
      have : env.toLower x ∈ filterSet env (x :: xs) :=
        (mem_filterSet env (x :: xs) _).2 ⟨x, List.mem_cons_self x xs, rfl⟩
      rw [h] at this
      simp at this
  · intro h
    subst h
    rfl

theorem ok1_iff (env : Env) (a : AlertManager) (e : Event) :
    ok1 env a e = true ↔
      (a.kindFilters = ∅ ∨ env.toLower e.InvolvedObject.Kind ∈ a.kindFilters) := by
  unfold ok1
  by_cases h : a.kindFilters = ∅ <;> simp [h]

theorem ok2_iff (env : Env) (a : AlertManager) (e : Event) :
    ok2 env a e = true ↔
      (a.typeFilters = ∅ ∨ env.toLower e.Type_ ∈ a.typeFilters) := by
  unfold ok2
  by_cases h : a.typeFilters = ∅ <;> simp [h]

theorem ok3_iff (env : Env) (a : AlertManager) (e : Event) :
    ok3 env a e = true ↔
      (a.reasonFilters = ∅ ∨ env.toLower e.Reason ∈ a.reasonFilters) := by
  unfold ok3
  by_cases h : a.reasonFilters = ∅ <;> simp [h]

/-! ## Lemmas on `fire` and `ObjectCreated` -/

theorem callsSince_append (w w2 : World) (cs : List Call) (h : w2.trace = w.trace ++ cs) :
    callsSince w w2 = cs := by
  simp [callsSince, h]

/-- The trace of `fire`: the call itself, then the post if the alerts serialize. -/
theorem fire_trace (env : Env) (a : AlertManager) (alerts : Alerts) (w : World) :
    (fire env a alerts w).2.trace =
      w.trace ++ Call.fire alerts ::
        (match env.marshal alerts with
          | .error _ => []
          | .ok data => [Call.httpPost a.endpoint contentType data]) := by
  have hposts : (w.record (Call.fire alerts)).posts = w.posts := rfl
  simp only [fire, hposts]
  cases hm : env.marshal alerts with
  | error err => simp [World.record]
  | ok data =>
    cases hp : env.post w.posts a.endpoint contentType data with
    | error err => simp [World.record, hp]
    | ok resp =>
      by_cases hs : resp.StatusCode = 200 <;> simp [World.record, hs, hp]

/-- The trace of `ObjectCreated` on an event that passes no test. -/
theorem ObjectCreated_ignored (env : Env) (a : AlertManager) (e : Event) (w : World)
    (h : (ok1 env a e || ok2 env a e || ok3 env a e) = false) :
    (ObjectCreated env a (Obj.event e) w).trace =
      w.trace ++ [Call.objectCreated (Obj.event e),
                  Call.glogInfof "event %v ignored to send alert"] := by
  simp only [Bool.or_eq_false_iff] at h
  obtain ⟨⟨h1, h2⟩, h3⟩ := h
  simp [ObjectCreated, h1, h2, h3, World.record]

/-- The trace of `ObjectCreated` on an event that passes a test. -/
theorem ObjectCreated_forwarded (env : Env) (a : AlertManager) (e : Event) (w : World)
    (h : (ok1 env a e || ok2 env a e || ok3 env a e) = true) :
    (ObjectCreated env a (Obj.event e) w).trace =
      (fire env a [alertOf e] (w.record (Call.objectCreated (Obj.event e)))).2.trace ++
        [if (fire env a [alertOf e] (w.record (Call.objectCreated (Obj.event e)))).1.isSome
          then Call.glogErrorf "failed to send alert %v to %s"
          else Call.glogInfof "Successfully send alert: %v"] := by
  have hc : (!ok1 env a e && !ok2 env a e && !ok3 env a e) = false := by
    revert h
    cases ok1 env a e <;> cases ok2 env a e <;> cases ok3 env a e <;> simp
  unfold ObjectCreated
  simp only [hc, alertOf, Bool.false_eq_true, if_false]
  split <;> rename_i heq <;> simp only [heq] <;> simp [World.record]

theorem ObjectCreated_event_trace (env : Env) (a : AlertManager) (e : Event) (w : World) :
    (ObjectCreated env a (Obj.event e) w).trace = w.trace ++ eventCalls env a e w := by
  unfold eventCalls
  by_cases h : (ok1 env a e || ok2 env a e || ok3 env a e) = true
  · rw [if_pos h, ObjectCreated_forwarded env a e w h, fire_trace]
    simp [World.record]
  · rw [if_neg h, ObjectCreated_ignored env a e w (by simpa using h)]

theorem ObjectCreated_calls (env : Env) (a : AlertManager) (e : Event) (w : World) :
    callsSince w (ObjectCreated env a (Obj.event e) w) = eventCalls env a e w :=
  callsSince_append _ _ _ (ObjectCreated_event_trace env a e w)

/-- The alerts `ObjectCreated` passes to `fire`: one collection holding one
alert when a test passes, nothing otherwise. -/
theorem firedAlerts_ObjectCreated (env : Env) (a : AlertManager) (e : Event) (w : World) :
    firedAlerts (callsSince w (ObjectCreated env a (Obj.event e) w)) =
      if (ok1 env a e || ok2 env a e || ok3 env a e) = true then [[alertOf e]] else [] := by
  rw [ObjectCreated_calls]
  unfold eventCalls
  by_cases h : (ok1 env a e || ok2 env a e || ok3 env a e) = true
  · rw [if_pos h, if_pos h]
    cases hm : env.marshal [alertOf e] <;>
      by_cases hf : (fire env a [alertOf e]
        (w.record (Call.objectCreated (Obj.event e)))).1.isSome = true <;>
      simp [firedAlerts, hf]
  · rw [if_neg h, if_neg h]
    simp [firedAlerts]

theorem filterSet_eq_toFinset (env : Env) (xs : List String) :
    filterSet env xs = (xs.map env.toLower).toFinset := by
  simp [filterSet, foldl_insert_eq]

theorem filterSet_eq_empty (env : Env) (xs : List String) :
    filterSet env xs = ∅ ↔ xs = [] := by
  rw [← Finset.card_eq_zero]
  exact filterSet_card_eq_zero env xs

/-- Whether `fire` is called: some test passes. -/
theorem fired_iff (env : Env) (a : AlertManager) (e : Event) (w : World) :
    firedAlerts (callsSince w (ObjectCreated env a (Obj.event e) w)) ≠ [] ↔
      (ok1 env a e = true ∨ ok2 env a e = true ∨ ok3 env a e = true) := by
  rw [firedAlerts_ObjectCreated]
  by_cases h : (ok1 env a e || ok2 env a e || ok3 env a e) = true
  · rw [if_pos h]
    simp only [Bool.or_eq_true] at h
    simp only [ne_eq, List.cons_ne_self, not_false_eq_true, true_iff, reduceCtorEq]
    tauto
  · rw [if_neg h]
    simp only [Bool.or_eq_true] at h
    simp only [ne_eq, not_true_eq_false, false_iff]
    tauto

/-! ## Lemmas on the worker -/

theorem fire_queue (env : Env) (a : AlertManager) (alerts : Alerts) (w : World) :
    (fire env a alerts w).2.queue = w.queue ∧ (fire env a alerts w).2.indexer = w.indexer := by
  have hposts : (w.record (Call.fire alerts)).posts = w.posts := rfl
  simp only [fire, hposts]
  cases hm : env.marshal alerts with
  | error err => simp [World.record]
  | ok data =>
    cases hp : env.post w.posts a.endpoint contentType data with
    | error err => simp [World.record, hp]
    | ok resp =>
      by_cases hs : resp.StatusCode = 200 <;> simp [World.record, hs, hp]

theorem ObjectCreated_queue (env : Env) (a : AlertManager) (obj : Obj) (w : World) :
    (ObjectCreated env a obj w).queue = w.queue ∧
    (ObjectCreated env a obj w).indexer = w.indexer := by
  cases obj with
  | other d => simp [ObjectCreated, World.record]
  | event e =>
    unfold ObjectCreated
    simp only []
    split
    · simp [World.record]
    · have hq := fire_queue env a
        [{ Labels := labelsOf e, Annotations := [], GeneratorURL := "" }]
        (w.record (Call.objectCreated (Obj.event e)))
      split <;> rename_i heq <;> simp only [heq] at hq <;> simp [World.record, hq]

theorem ObjectCreated_other_trace (env : Env) (a : AlertManager) (d : String) (w : World) :
    (ObjectCreated env a (Obj.other d) w).trace =
      w.trace ++ [Call.objectCreated (Obj.other d),
                  Call.glogInfof "object %v is not a *v1.Event"] := by
  simp [ObjectCreated, World.record]

/-- The trace of `ObjectCreated` only grows, and only by handler calls. -/
theorem ObjectCreated_trace (env : Env) (a : AlertManager) (obj : Obj) (w : World) :
    ∃ cs : List Call, (ObjectCreated env a obj w).trace = w.trace ++ cs ∧
      cs.all isHandlerCall = true := by
  cases obj with
  | other d => exact ⟨_, ObjectCreated_other_trace env a d w, rfl⟩
  | event e =>
    refine ⟨eventCalls env a e w, ObjectCreated_event_trace env a e w, ?_⟩
    unfold eventCalls
    by_cases h : (ok1 env a e || ok2 env a e || ok3 env a e) = true
    · rw [if_pos h]
      cases env.marshal [alertOf e] <;>
        cases (fire env a [alertOf e]
          (w.record (Call.objectCreated (Obj.event e)))).1.isSome <;>
        simp [isHandlerCall]
    · rw [if_neg h]
      rfl

/-- The three outcomes of `processItem`. -/
theorem processItem_error (env : Env) (c : Controller) (key : String) (w : World)
    (err : Error) (h : (w.indexer key).err = some err) :
    processItem env c key w =
      (some err, { w with trace := w.trace ++
        [Call.getByKey key, Call.glogErrorf "Fetching obj with key %s failed: %v"] }) := by
  have hi : (w.record (Call.getByKey key)).indexer key = w.indexer key := rfl
  simp [processItem, hi, h, World.record]

theorem processItem_absent (env : Env) (c : Controller) (key : String) (w : World)
    (h : (w.indexer key).err = none) (hf : (w.indexer key).found = false) :
    processItem env c key w =
      (none, { w with trace := w.trace ++
        [Call.getByKey key, Call.glogInfof "Event %s does not exist anymore"] }) := by
  have hi : (w.record (Call.getByKey key)).indexer key = w.indexer key := rfl
  simp [processItem, hi, h, hf, World.record]

theorem processItem_found (env : Env) (c : Controller) (key : String) (w : World)
    (h : (w.indexer key).err = none) (hf : (w.indexer key).found = true) :
    processItem env c key w =
      (none, ObjectCreated env c.eventHandler (w.indexer key).item
        (w.record (Call.getByKey key))) := by
  have hi : (w.record (Call.getByKey key)).indexer key = w.indexer key := rfl
  simp [processItem, hi, h, hf]

/-- The method `processItem` leaves the queue and the cache alone, and its trace
only grows, by handler calls. -/
theorem processItem_frame (env : Env) (c : Controller) (key : String) (w : World) :
    (processItem env c key w).2.queue = w.queue ∧
    (processItem env c key w).2.indexer = w.indexer ∧
    ∃ cs : List Call, (processItem env c key w).2.trace = w.trace ++ cs ∧
      cs.all isHandlerCall = true := by
  cases he : (w.indexer key).err with
  | some err =>
    rw [processItem_error env c key w err he]
    exact ⟨rfl, rfl, _, rfl, rfl⟩
  | none =>
    cases hf : (w.indexer key).found with
    | false =>
      rw [processItem_absent env c key w he hf]
      exact ⟨rfl, rfl, _, rfl, rfl⟩
    | true =>
      rw [processItem_found env c key w he hf]
      have hq := ObjectCreated_queue env c.eventHandler (w.indexer key).item
        (w.record (Call.getByKey key))
      obtain ⟨cs, hcs, hall⟩ := ObjectCreated_trace env c.eventHandler (w.indexer key).item
        (w.record (Call.getByKey key))
      refine ⟨hq.1, hq.2, Call.getByKey key :: cs, ?_, ?_⟩
      · show (ObjectCreated env c.eventHandler (w.indexer key).item
            (w.record (Call.getByKey key))).trace = _
        rw [hcs]
        simp [World.record]
      · simpa [isHandlerCall] using hall

/-- The method `processItem` returns an error only when the cache lookup fails. -/
theorem processItem_error_iff (env : Env) (c : Controller) (key : String) (w : World)
    (err : Error) :
    (processItem env c key w).1 = some err ↔ (w.indexer key).err = some err := by
  cases he : (w.indexer key).err with
  | some e2 =>
    rw [processItem_error env c key w e2 he]
  | none =>
    cases hf : (w.indexer key).found with
    | false => rw [processItem_absent env c key w he hf]
    | true => rw [processItem_found env c key w he hf]

theorem processNextItem_blocked (env : Env) (c : Controller) (w : World)
    (h : w.queue.Get = none) : processNextItem env c w = none := by
  have hq : (w.record Call.queueGet).queue = w.queue := rfl
  simp [processNextItem, hq, h]

theorem processNextItem_quit (env : Env) (c : Controller) (w : World) (key : String)
    (q : WorkQueue) (h : w.queue.Get = some (key, true, q)) :
    processNextItem env c w = some (false, w.record Call.queueGet) := by
  have hq : (w.record Call.queueGet).queue = w.queue := rfl
  simp [processNextItem, hq, h]

/-- A dequeued key whose processing succeeds is forgotten. -/
theorem processNextItem_success (env : Env) (c : Controller) (w : World) (key : String)
    (q : WorkQueue) (h : w.queue.Get = some (key, false, q))
    (hok : (processItem env c key (afterGet w q)).1 = none) :
    processNextItem env c w = some (true,
      { (processItem env c key (afterGet w q)).2 with
        queue := (q.Forget key).Done key
        trace := (processItem env c key (afterGet w q)).2.trace ++
          [Call.queueForget key, Call.queueDone key] }) := by
  have hq : (w.record Call.queueGet).queue = w.queue := rfl
  have hw : ({ w.record Call.queueGet with queue := q } : World) = afterGet w q := rfl
  have hfr := (processItem_frame env c key (afterGet w q)).1
  have hq2 : (afterGet w q).queue = q := rfl
  rw [hq2] at hfr
  simp only [processNextItem, hq, h, hw]
  cases hr : processItem env c key (afterGet w q) with
  | mk r w1 =>
    rw [hr] at hok hfr
    simp only at hok hfr
    subst hok
    simp [World.record, hfr]

/-- A dequeued key whose processing fails is re-added while its counter is
below 5. -/
theorem processNextItem_retry (env : Env) (c : Controller) (w : World) (key : String)
    (q : WorkQueue) (err : Error) (h : w.queue.Get = some (key, false, q))
    (herr : (processItem env c key (afterGet w q)).1 = some err)
    (hn : q.failures key < 5) :
    processNextItem env c w = some (true,
      { (processItem env c key (afterGet w q)).2 with
        queue := (q.AddRateLimited key).Done key
        trace := (processItem env c key (afterGet w q)).2.trace ++
          [Call.queueNumRequeues key,
           Call.glogErrorf "Error processing %s (will retry): %v",
           Call.queueAddRateLimited key, Call.queueDone key] }) := by
  have hq : (w.record Call.queueGet).queue = w.queue := rfl
  have hw : ({ w.record Call.queueGet with queue := q } : World) = afterGet w q := rfl
  have hfr := (processItem_frame env c key (afterGet w q)).1
  have hq2 : (afterGet w q).queue = q := rfl
  rw [hq2] at hfr
  simp only [processNextItem, hq, h, hw]
  cases hr : processItem env c key (afterGet w q) with
  | mk r w1 =>
    rw [hr] at herr hfr
    simp only at herr hfr
    subst herr
    simp [World.record, hfr, WorkQueue.NumRequeues, hn]

/-- A dequeued key whose processing fails is given up once its counter has
reached 5. -/
theorem processNextItem_giveup (env : Env) (c : Controller) (w : World) (key : String)
    (q : WorkQueue) (err : Error) (h : w.queue.Get = some (key, false, q))
    (herr : (processItem env c key (afterGet w q)).1 = some err)
    (hn : ¬ q.failures key < 5) :
    processNextItem env c w = some (true,
      { (processItem env c key (afterGet w q)).2 with
        queue := (q.Forget key).Done key
        trace := (processItem env c key (afterGet w q)).2.trace ++
          [Call.queueNumRequeues key,
           Call.glogErrorf "Error processing %s (give up): %v",
           Call.queueForget key, Call.handleError err, Call.queueDone key] }) := by
  have hq : (w.record Call.queueGet).queue = w.queue := rfl
  have hw : ({ w.record Call.queueGet with queue := q } : World) = afterGet w q := rfl
  have hfr := (processItem_frame env c key (afterGet w q)).1
  have hq2 : (afterGet w q).queue = q := rfl
  rw [hq2] at hfr
  simp only [processNextItem, hq, h, hw]
  cases hr : processItem env c key (afterGet w q) with
  | mk r w1 =>
    rw [hr] at herr hfr
    simp only at herr hfr
    subst herr
    simp [World.record, hfr, WorkQueue.NumRequeues, hn]

theorem Get_cons (q : WorkQueue) (key : String) (rest : List String)
    (h : q.queue = key :: rest) :
    q.Get = some (key, false,
      { q with queue := rest, processing := insert key q.processing,
               dirty := q.dirty.erase key }) := by
  simp [WorkQueue.Get, h]

theorem Get_quit_iff (q : WorkQueue) :
    (∃ (key : String) (q2 : WorkQueue), q.Get = some (key, true, q2)) ↔
      (q.queue = [] ∧ q.shuttingDown = true) := by
  unfold WorkQueue.Get
  cases hq : q.queue with
  | nil =>
    cases hs : q.shuttingDown <;> simp
  | cons k rest => simp

theorem Get_quit_eq (q : WorkQueue) (key : String) (q2 : WorkQueue)
    (h : q.Get = some (key, true, q2)) : q2 = q := by
  unfold WorkQueue.Get at h
  cases hq : q.queue with
  | nil =>
    rw [hq] at h
    cases hs : q.shuttingDown <;> simp [hs] at h
    exact h.2.symm
  | cons k rest =>
    rw [hq] at h
    simp at h

/-- Every dequeued key: `processNextItem` returns true, and its calls are
`Get`, the calls of `processItem`, one of the three classifications and
finally `Done`. -/
theorem processNextItem_dequeued (env : Env) (c : Controller) (w : World) (key : String)
    (q : WorkQueue) (h : w.queue.Get = some (key, false, q)) :
    ∃ (w2 : World) (cs tail : List Call),
      processNextItem env c w = some (true, w2) ∧
      w2.trace = w.trace ++ (Call.queueGet :: cs ++ tail ++ [Call.queueDone key]) ∧
      w2.indexer = w.indexer ∧
      cs.all isHandlerCall = true ∧
      (tail = [Call.queueForget key] ∨
       tail = [Call.queueNumRequeues key,
               Call.glogErrorf "Error processing %s (will retry): %v",
               Call.queueAddRateLimited key] ∨
       ∃ err : Error, tail = [Call.queueNumRequeues key,
               Call.glogErrorf "Error processing %s (give up): %v",
               Call.queueForget key, Call.handleError err]) := by
  obtain ⟨_, hidx, cs, hcs, hall⟩ := processItem_frame env c key (afterGet w q)
  have ht : (afterGet w q).trace = w.trace ++ [Call.queueGet] := rfl
  have hi : (afterGet w q).indexer = w.indexer := rfl
  rw [ht] at hcs
  rw [hi] at hidx
  cases hr : (processItem env c key (afterGet w q)).1 with
  | none =>
    refine ⟨_, cs, _, processNextItem_success env c w key q h hr, ?_, hidx, hall, Or.inl rfl⟩
    simp [hcs]
  | some err =>
    by_cases hn : q.failures key < 5
    · refine ⟨_, cs, _, processNextItem_retry env c w key q err h hr hn, ?_, hidx, hall,
        Or.inr (Or.inl rfl)⟩
      simp [hcs]
    · refine ⟨_, cs, _, processNextItem_giveup env c w key q err h hr hn, ?_, hidx, hall,
        Or.inr (Or.inr ⟨err, rfl⟩)⟩
      simp [hcs]

theorem not_mem_of_all_isHandlerCall (cs : List Call) (x : Call)
    (hall : cs.all isHandlerCall = true) (hx : isHandlerCall x = false) : x ∉ cs := by
  intro hmem
  rw [List.all_eq_true] at hall
  rw [hall x hmem] at hx
  exact absurd hx (by decide)

/-- A worker loop that has ended saw the queue empty and shut down. -/
theorem runWorker_exited (env : Env) (c : Controller) (fuel : Nat) :
    ∀ (w w2 : World), runWorker env c fuel w = Worker.exited w2 →
      w2.queue.queue = [] ∧ w2.queue.shuttingDown = true := by
  induction fuel with
  | zero =>
    intro w w2 h
    simp [runWorker] at h
  | succ n ih =>
    intro w w2 h
    cases hg : w.queue.Get with
    | none =>
      simp [runWorker, processNextItem_blocked env c w hg] at h
    | some r =>
      obtain ⟨key, quit, q⟩ := r
      cases quit with
      | true =>
        simp only [runWorker, processNextItem_quit env c w key q hg] at h
        have hw : w2 = w.record Call.queueGet := by
          injection h with h
          exact h.symm
        subst hw
        exact (Get_quit_iff w.queue).1 ⟨key, q, hg⟩
      | false =>
        obtain ⟨w1, _, _, hp, _⟩ := processNextItem_dequeued env c w key q hg
        simp only [runWorker, hp] at h
        exact ih w1 w2 h

/-- The error returned by `fire` depends on the world only through the number
of posts made so far. -/
theorem fire_fst_congr (env : Env) (a : AlertManager) (alerts : Alerts) (w w2 : World)
    (h : w.posts = w2.posts) : (fire env a alerts w).1 = (fire env a alerts w2).1 := by
  have h1 : (w.record (Call.fire alerts)).posts = w.posts := rfl
  have h2 : (w2.record (Call.fire alerts)).posts = w2.posts := rfl
  simp only [fire, h1, h2, h]
  cases hm : env.marshal alerts with
  | error err => rfl
  | ok data =>
    cases hp : env.post w2.posts a.endpoint contentType data with
    | error err => simp [hp]
    | ok resp => by_cases hs : resp.StatusCode = 200 <;> simp [hp, hs]

theorem Get_cons_facts (q : WorkQueue) (key : String) (rest : List String)
    (h : q.queue = key :: rest) :
    ∃ q2 : WorkQueue, q.Get = some (key, false, q2) ∧ q2.queue = rest ∧
      q2.shuttingDown = q.shuttingDown ∧ q2.failures = q.failures ∧
      key ∈ q2.processing ∧ key ∉ q2.dirty :=
  ⟨_, Get_cons q key rest h, rfl, rfl, rfl, by simp, by simp⟩

/-- One failed attempt on a key whose counter is below 5: the key is re-added
behind the waiting keys and its counter grows by one. -/
theorem step_retry (env : Env) (c : Controller) (w : World) (key : String)
    (rest : List String) (err : Error)
    (hq : w.queue.queue = key :: rest) (hs : w.queue.shuttingDown = false)
    (herr : (w.indexer key).err = some err) (hn : w.queue.failures key < 5) :
    ∃ w2 : World, processNextItem env c w = some (true, w2) ∧
      w2.trace = w.trace ++ retriedAttempt key ∧
      w2.indexer = w.indexer ∧ w2.queue.queue = rest ++ [key] ∧
      w2.queue.shuttingDown = false ∧
      w2.queue.failures key = w.queue.failures key + 1 := by
  obtain ⟨q, hg, hqr, hqs, hqf, hproc, hdirty⟩ := Get_cons_facts w.queue key rest hq
  rw [hs] at hqs
  have hi : ((afterGet w q).indexer key).err = some err := herr
  have hp := processItem_error env c key _ err hi
  refine ⟨_, processNextItem_retry env c w key q err hg (by rw [hp]) (by rw [hqf]; exact hn),
    ?_, ?_, ?_, ?_, ?_⟩
  · show (processItem env c key _).2.trace ++ _ = _
    rw [hp]
    simp [afterGet, retriedAttempt]
  · show (processItem env c key _).2.indexer = _
    rw [hp]
    rfl
  · simp [WorkQueue.AddRateLimited, WorkQueue.Add, WorkQueue.Done, hqs, hproc, hdirty, hqr]
  · simp [WorkQueue.AddRateLimited, WorkQueue.Add, WorkQueue.Done, hqs, hproc, hdirty]
  · simp [WorkQueue.AddRateLimited, WorkQueue.Add, WorkQueue.Done, hqs, hproc, hdirty, hqf]

/-- One failed attempt on a key whose counter has reached 5: the key is
forgotten, the error goes to `runtime.HandleError`, and the key is not
re-added. -/
theorem step_giveup (env : Env) (c : Controller) (w : World) (key : String)
    (rest : List String) (err : Error)
    (hq : w.queue.queue = key :: rest)
    (herr : (w.indexer key).err = some err) (hn : ¬ w.queue.failures key < 5) :
    ∃ w2 : World, processNextItem env c w = some (true, w2) ∧
      w2.trace = w.trace ++ abandonedAttempt key err ∧
      w2.indexer = w.indexer ∧ w2.queue.queue = rest ∧
      w2.queue.shuttingDown = w.queue.shuttingDown ∧
      w2.queue.failures key = 0 := by
  obtain ⟨q, hg, hqr, hqs, hqf, hproc, hdirty⟩ := Get_cons_facts w.queue key rest hq
  have hi : ((afterGet w q).indexer key).err = some err := herr
  have hp := processItem_error env c key _ err hi
  refine ⟨_, processNextItem_giveup env c w key q err hg (by rw [hp]) (by rw [hqf]; exact hn),
    ?_, ?_, ?_, ?_, ?_⟩
  · show (processItem env c key _).2.trace ++ _ = _
    rw [hp]
    simp [afterGet, abandonedAttempt]
  · show (processItem env c key _).2.indexer = _
    rw [hp]
    rfl
  · simp [WorkQueue.Forget, WorkQueue.Done, hdirty, hqr]
  · simp [WorkQueue.Forget, WorkQueue.Done, hdirty, hqs]
  · simp [WorkQueue.Forget, WorkQueue.Done, hdirty]

/-- A worker on an empty queue that is not shut down stays blocked in `Get`. -/
theorem runWorker_waiting (env : Env) (c : Controller) (w : World) (m : Nat)
    (hq : w.queue.queue = []) (hs : w.queue.shuttingDown = false) :
    runWorker env c (m + 1) w = Worker.waiting w := by
  have hg : w.queue.Get = none := by simp [WorkQueue.Get, hq, hs]
  simp [runWorker, processNextItem_blocked env c w hg]

theorem retryCalls_append (xs ys : List Call) :
    retryCalls (xs ++ ys) = retryCalls xs ++ retryCalls ys := by
  simp [retryCalls]

/-- As long as the counter stays within 5, `n` failing attempts on the only
queued key are `n` calls of `AddRateLimited`. -/
theorem run_retries (env : Env) (c : Controller) (key : String) (err : Error) :
    ∀ (n : Nat) (w : World), w.queue.queue = [key] → w.queue.shuttingDown = false →
      (w.indexer key).err = some err → w.queue.failures key + n ≤ 5 →
      ∃ (wn : World) (cs : List Call),
        (∀ m : Nat, runWorker env c (n + m) w = runWorker env c m wn) ∧
        wn.trace = w.trace ++ cs ∧
        retryCalls cs = List.replicate n (Call.queueAddRateLimited key) ∧
        wn.queue.queue = [key] ∧ wn.queue.shuttingDown = false ∧
        wn.indexer = w.indexer ∧
        wn.queue.failures key = w.queue.failures key + n := by
  intro n
  induction n with
  | zero =>
    intro w hq hs _ _
    exact ⟨w, [], fun m => by rw [Nat.zero_add], by simp, rfl, hq, hs, rfl, rfl⟩
  | succ n ih =>
    intro w hq hs herr hle
    obtain ⟨w1, hp, ht1, hi1, hq1, hs1, hf1⟩ :=
      step_retry env c w key [] err hq hs herr (by omega)
    have herr1 : (w1.indexer key).err = some err := by rw [hi1]; exact herr
    obtain ⟨wn, cs, hrun, htn, hrc, hqn, hsn, hin, hfn⟩ :=
      ih w1 (by simpa using hq1) hs1 herr1 (by omega)
    refine ⟨wn, retriedAttempt key ++ cs, ?_, ?_, ?_, hqn, hsn, by rw [hin, hi1], by omega⟩
    · intro m
      have : n + 1 + m = (n + m) + 1 := by omega
      rw [this]
      simp only [runWorker, hp]
      exact hrun m
    · rw [htn, ht1, List.append_assoc]
    · rw [retryCalls_append, hrc]
      rfl

/-! ## The claims on the filter and forward handler -/

/-- C1: `ObjectCreated` calls `fire` for an event if and only if at least one
of the three tests passes, where a test passes when its filter set is empty or
contains the lower-cased kind, type or reason of the event. An event whose kind
is in the kind set is forwarded whatever the other tests give; an event that
matches none of three non-empty sets is not forwarded. This holds for every
`AlertManager`, so for every one built by `New`. -/
theorem C1_forwarded_iff_some_test_passes (env : Env) (a : AlertManager) (e : Event)
    (w : World) :
    (firedAlerts (callsSince w (ObjectCreated env a (Obj.event e) w)) ≠ [] ↔
      ((a.kindFilters = ∅ ∨ env.toLower e.InvolvedObject.Kind ∈ a.kindFilters) ∨
       (a.typeFilters = ∅ ∨ env.toLower e.Type_ ∈ a.typeFilters) ∨
       (a.reasonFilters = ∅ ∨ env.toLower e.Reason ∈ a.reasonFilters))) ∧
    (env.toLower e.InvolvedObject.Kind ∈ a.kindFilters →
      firedAlerts (callsSince w (ObjectCreated env a (Obj.event e) w)) ≠ []) ∧
    (a.kindFilters ≠ ∅ → a.typeFilters ≠ ∅ → a.reasonFilters ≠ ∅ →
      env.toLower e.InvolvedObject.Kind ∉ a.kindFilters →
      env.toLower e.Type_ ∉ a.typeFilters →
      env.toLower e.Reason ∉ a.reasonFilters →
      firedAlerts (callsSince w (ObjectCreated env a (Obj.event e) w)) = []) := by
  have key := fired_iff env a e w
  rw [ok1_iff, ok2_iff, ok3_iff] at key
  refine ⟨key, ?_, ?_⟩
  · intro h
    exact key.2 (Or.inl (Or.inr h))
  · intro hk ht hr nk nt nr
    by_contra hne
    rcases key.1 hne with h | h | h
    · exact h.elim hk nk
    · exact h.elim ht nt
    · exact h.elim hr nr

/-- C1 at a concrete input: with the three non-empty sets `Node`, `Normal`,
`Started`, the failed pod matches nothing and is not forwarded. -/
theorem C1_forwarded_iff_some_test_passes_witness :
    firedAlerts (callsSince sampleWorld
      (ObjectCreated sampleEnv (New sampleEnv "http://127.0.0.1:9093" strictConfig)
        (Obj.event podFailed) sampleWorld)) = [] :=
  (C1_forwarded_iff_some_test_passes sampleEnv
      (New sampleEnv "http://127.0.0.1:9093" strictConfig) podFailed sampleWorld).2.2
    (by decide) (by decide) (by decide) (by decide) (by decide) (by decide)

/-- C5: filter values are compared case-insensitively. For the `AlertManager`
returned by `New`, the kind test passes exactly when `config.Kinds` is empty or
some entry has the same lower-case form as the kind of the event, and likewise
for types and reasons. Replacing configured strings or the three
classification fields of the event by strings with the same lower-case form
(a change of letter case) never changes whether the event is forwarded, and an
empty configured sequence passes every event in its dimension. -/
theorem C5_filters_case_insensitive (env : Env) (url : String) (config : Config) (e : Event) :
    (ok1 env (New env url config) e = true ↔
      (config.Kinds = [] ∨
        ∃ k ∈ config.Kinds, env.toLower k = env.toLower e.InvolvedObject.Kind)) ∧
    (ok2 env (New env url config) e = true ↔
      (config.Types = [] ∨ ∃ t ∈ config.Types, env.toLower t = env.toLower e.Type_)) ∧
    (ok3 env (New env url config) e = true ↔
      (config.Reasons = [] ∨ ∃ r ∈ config.Reasons, env.toLower r = env.toLower e.Reason)) ∧
    (∀ (url2 : String) (config2 : Config) (e2 : Event) (w w2 : World),
      config2.Kinds.map env.toLower = config.Kinds.map env.toLower →
      config2.Types.map env.toLower = config.Types.map env.toLower →
      config2.Reasons.map env.toLower = config.Reasons.map env.toLower →
      env.toLower e2.InvolvedObject.Kind = env.toLower e.InvolvedObject.Kind →
      env.toLower e2.Type_ = env.toLower e.Type_ →
      env.toLower e2.Reason = env.toLower e.Reason →
      (firedAlerts (callsSince w2
          (ObjectCreated env (New env url2 config2) (Obj.event e2) w2)) ≠ [] ↔
        firedAlerts (callsSince w
          (ObjectCreated env (New env url config) (Obj.event e) w)) ≠ [])) ∧
    (config.Kinds = [] → ∀ e2 : Event, ok1 env (New env url config) e2 = true) ∧
    (config.Types = [] → ∀ e2 : Event, ok2 env (New env url config) e2 = true) ∧
    (config.Reasons = [] → ∀ e2 : Event, ok3 env (New env url config) e2 = true) := by
  have h1 : ∀ (u : String) (c : Config) (ev : Event), ok1 env (New env u c) ev = true ↔
      (c.Kinds = [] ∨ ∃ k ∈ c.Kinds, env.toLower k = env.toLower ev.InvolvedObject.Kind) := by
    intro u c ev
    rw [ok1_iff]
    simp only [New, filterSet_eq_empty, mem_filterSet]
  have h2 : ∀ (u : String) (c : Config) (ev : Event), ok2 env (New env u c) ev = true ↔
      (c.Types = [] ∨ ∃ t ∈ c.Types, env.toLower t = env.toLower ev.Type_) := by
    intro u c ev
    rw [ok2_iff]
    simp only [New, filterSet_eq_empty, mem_filterSet]
  have h3 : ∀ (u : String) (c : Config) (ev : Event), ok3 env (New env u c) ev = true ↔
      (c.Reasons = [] ∨ ∃ r ∈ c.Reasons, env.toLower r = env.toLower ev.Reason) := by
    intro u c ev
    rw [ok3_iff]
    simp only [New, filterSet_eq_empty, mem_filterSet]
  refine ⟨h1 url config e, h2 url config e, h3 url config e, ?_, ?_, ?_, ?_⟩
  · intro url2 config2 e2 w w2 hk ht hr ek et er
    have s1 : ok1 env (New env url2 config2) e2 = ok1 env (New env url config) e := by
      simp only [ok1, New, filterSet_eq_toFinset, hk, ek]
    have s2 : ok2 env (New env url2 config2) e2 = ok2 env (New env url config) e := by
      simp only [ok2, New, filterSet_eq_toFinset, ht, et]
    have s3 : ok3 env (New env url2 config2) e2 = ok3 env (New env url config) e := by
      simp only [ok3, New, filterSet_eq_toFinset, hr, er]
    rw [fired_iff, fired_iff, s1, s2, s3]
  · intro h e2
    exact (h1 url config e2).2 (Or.inl h)
  · intro h e2
    exact (h2 url config e2).2 (Or.inl h)
  · intro h e2
    exact (h3 url config e2).2 (Or.inl h)

/-- C5 at a concrete input: the policy `reasons: ["FAILED"]` and the event with
reason `failed` forward exactly like the policy `reasons: ["Failed"]` and the
event with reason `Failed`. -/
theorem C5_filters_case_insensitive_witness :
    (firedAlerts (callsSince sampleWorld
        (ObjectCreated sampleEnv
          (New sampleEnv "http://127.0.0.1:9093"
            { Kinds := ["NODE"], Types := ["normal"], Reasons := ["FAILED"] })
          (Obj.event { podFailed with Reason := "failed", Type_ := "WARNING" })
          sampleWorld)) ≠ [] ↔
      firedAlerts (callsSince sampleWorld
        (ObjectCreated sampleEnv
          (New sampleEnv "http://127.0.0.1:9093"
            { Kinds := ["Node"], Types := ["Normal"], Reasons := ["Failed"] })
          (Obj.event podFailed) sampleWorld)) ≠ []) :=
  (C5_filters_case_insensitive sampleEnv "http://127.0.0.1:9093"
      { Kinds := ["Node"], Types := ["Normal"], Reasons := ["Failed"] } podFailed).2.2.2.1
    "http://127.0.0.1:9093" { Kinds := ["NODE"], Types := ["normal"], Reasons := ["FAILED"] }
    { podFailed with Reason := "failed", Type_ := "WARNING" } sampleWorld sampleWorld
    (by decide) (by decide) (by decide) (by decide) (by decide) (by decide)

/-- C6: an `AlertManager` built from a `Config` whose three sequences are all
empty forwards every event: `fire` is called, once, whatever the kind, type and
reason of the event. -/
theorem C6_empty_config_forwards_all (env : Env) (url : String) (e : Event) (w : World) :
    firedAlerts (callsSince w
      (ObjectCreated env (New env url { Kinds := [], Types := [], Reasons := [] })
        (Obj.event e) w)) = [[alertOf e]] := by
  rw [firedAlerts_ObjectCreated]
  have h : ok1 env (New env url { Kinds := [], Types := [], Reasons := [] }) e = true := by
    rw [ok1_iff]
    exact Or.inl rfl
  simp [h]

/-- C10: if at least one of the three filter sets is empty, every event is
forwarded whatever the other two sets contain. Under the policy
`reasons: ["Failed"]` an event with reason `Started` is forwarded just like one
with reason `Failed`. -/
theorem C10_one_empty_set_forwards_all (env : Env) (a : AlertManager) (e : Event) (w : World)
    (h : a.kindFilters = ∅ ∨ a.typeFilters = ∅ ∨ a.reasonFilters = ∅) :
    firedAlerts (callsSince w (ObjectCreated env a (Obj.event e) w)) = [[alertOf e]] ∧
    (∀ (url : String) (e2 : Event) (w2 : World),
      firedAlerts (callsSince w2
        (ObjectCreated env (New env url { Kinds := [], Types := [], Reasons := ["Failed"] })
          (Obj.event { e2 with Reason := "Started" }) w2)) =
        [[alertOf { e2 with Reason := "Started" }]] ∧
      firedAlerts (callsSince w2
        (ObjectCreated env (New env url { Kinds := [], Types := [], Reasons := ["Failed"] })
          (Obj.event { e2 with Reason := "Failed" }) w2)) =
        [[alertOf { e2 with Reason := "Failed" }]]) := by
  have gen : ∀ (b : AlertManager) (ev : Event) (v : World),
      (b.kindFilters = ∅ ∨ b.typeFilters = ∅ ∨ b.reasonFilters = ∅) →
      firedAlerts (callsSince v (ObjectCreated env b (Obj.event ev) v)) = [[alertOf ev]] := by
    intro b ev v hb
    rw [firedAlerts_ObjectCreated]
    have : (ok1 env b ev || ok2 env b ev || ok3 env b ev) = true := by
      simp only [Bool.or_eq_true, ok1_iff, ok2_iff, ok3_iff]
      tauto
    rw [if_pos this]
  refine ⟨gen a e w h, ?_⟩
  intro url e2 w2
  exact ⟨gen _ _ w2 (Or.inl rfl), gen _ _ w2 (Or.inl rfl)⟩

/-- C10 at a concrete input: under `reasons: ["Failed"]` an event with reason
`Started` is forwarded. -/
theorem C10_one_empty_set_forwards_all_witness :
    firedAlerts (callsSince sampleWorld
      (ObjectCreated sampleEnv (New sampleEnv "http://127.0.0.1:9093" reasonsFailed)
        (Obj.event { podFailed with Reason := "Started" }) sampleWorld)) =
      [[alertOf { podFailed with Reason := "Started" }]] :=
  (C10_one_empty_set_forwards_all sampleEnv
    (New sampleEnv "http://127.0.0.1:9093" reasonsFailed)
    { podFailed with Reason := "Started" } sampleWorld (Or.inl (by decide))).1

/-- C4: for every forwarded event `fire` receives a collection of exactly one
alert whose label map has exactly the 13 keys alertname, namespace, name,
component, host, reason, kind, message, client, level,
involvedObjectNamespace, involvedObjectName and fieldPath; alertname is the
kind, one space and the reason in their original case, client is `k8swatch`,
level is the event type and every other label is the event field unchanged.
For a `Pod` / `Failed` / `Warning` event in namespace `ns1` named `pod-a`
under the policy `reasons: ["Failed"]` one alert is passed to `fire` with
alertname `Pod Failed`, and it is posted once when it serializes. -/
theorem C4_one_alert_with_thirteen_labels (env : Env) (a : AlertManager) (e : Event)
    (w : World)
    (h : firedAlerts (callsSince w (ObjectCreated env a (Obj.event e) w)) ≠ []) :
    (∃ alert : Alert,
      firedAlerts (callsSince w (ObjectCreated env a (Obj.event e) w)) = [[alert]] ∧
      alert.Labels.map Prod.fst =
        ["alertname", "namespace", "name", "component", "host", "reason", "kind",
         "message", "client", "level", "involvedObjectNamespace", "involvedObjectName",
         "fieldPath"] ∧
      (alert.Labels.map Prod.fst).Nodup ∧
      (alert.Labels.map Prod.fst).length = 13 ∧
      alert.Labels.lookup "alertname" = some (e.InvolvedObject.Kind ++ " " ++ e.Reason) ∧
      alert.Labels.lookup "namespace" = some e.Namespace ∧
      alert.Labels.lookup "name" = some e.Name ∧
      alert.Labels.lookup "component" = some e.Source.Component ∧
      alert.Labels.lookup "host" = some e.Source.Host ∧
      alert.Labels.lookup "reason" = some e.Reason ∧
      alert.Labels.lookup "kind" = some e.InvolvedObject.Kind ∧
      alert.Labels.lookup "message" = some e.Message ∧
      alert.Labels.lookup "client" = some "k8swatch" ∧
      alert.Labels.lookup "level" = some e.Type_ ∧
      alert.Labels.lookup "involvedObjectNamespace" = some e.InvolvedObject.Namespace ∧
      alert.Labels.lookup "involvedObjectName" = some e.InvolvedObject.Name ∧
      alert.Labels.lookup "fieldPath" = some e.InvolvedObject.FieldPath) ∧
    (∀ (url : String) (e2 : Event) (w2 : World),
      e2.InvolvedObject.Kind = "Pod" → e2.Reason = "Failed" → e2.Type_ = "Warning" →
      e2.Namespace = "ns1" → e2.Name = "pod-a" →
      ∃ alert : Alert,
        firedAlerts (callsSince w2
          (ObjectCreated env (New env url { Kinds := [], Types := [], Reasons := ["Failed"] })
            (Obj.event e2) w2)) = [[alert]] ∧
        alert.Labels.lookup "alertname" = some "Pod Failed" ∧
        (∀ data : String, env.marshal [alert] = Except.ok data →
          posted (callsSince w2
            (ObjectCreated env (New env url { Kinds := [], Types := [], Reasons := ["Failed"] })
              (Obj.event e2) w2)) = [(url ++ "/api/v1/alerts", "application/json", data)])) := by
  constructor
  · refine ⟨alertOf e, ?_, rfl, by simp [alertOf, labelsOf], rfl, rfl, rfl, rfl, rfl, rfl, rfl, rfl, rfl, rfl,
      rfl, rfl, rfl, rfl⟩
    rw [firedAlerts_ObjectCreated] at h ⊢
    by_cases hc : (ok1 env a e || ok2 env a e || ok3 env a e) = true
    · rw [if_pos hc]
    · rw [if_neg hc] at h
      exact absurd rfl h
  · intro url e2 w2 hk hr _ _ _
    have hpass : (ok1 env (New env url { Kinds := [], Types := [], Reasons := ["Failed"] }) e2 ||
        ok2 env (New env url { Kinds := [], Types := [], Reasons := ["Failed"] }) e2 ||
        ok3 env (New env url { Kinds := [], Types := [], Reasons := ["Failed"] }) e2) = true := by
      have : ok1 env (New env url { Kinds := [], Types := [], Reasons := ["Failed"] }) e2
          = true := by
        rw [ok1_iff]
        exact Or.inl rfl
      simp [this]
    refine ⟨alertOf e2, ?_, ?_, ?_⟩
    · rw [firedAlerts_ObjectCreated, if_pos hpass]
    · show (labelsOf e2).lookup "alertname" = some "Pod Failed"
      simp only [labelsOf, hk, hr]
      rfl
    · intro data hd
      rw [ObjectCreated_calls, eventCalls, if_pos hpass, hd]
      cases (fire env (New env url { Kinds := [], Types := [], Reasons := ["Failed"] })
          [alertOf e2] (w2.record (Call.objectCreated (Obj.event e2)))).1.isSome <;>
        simp [posted, New, alertPath, contentType]

/-- C4 at a concrete input: the failed pod under `reasons: ["Failed"]`. -/
theorem C4_one_alert_with_thirteen_labels_witness :
    ∃ alert : Alert,
      firedAlerts (callsSince sampleWorld
        (ObjectCreated sampleEnv (New sampleEnv "http://127.0.0.1:9093" reasonsFailed)
          (Obj.event podFailed) sampleWorld)) = [[alert]] ∧
      alert.Labels.lookup "alertname" = some "Pod Failed" :=
  let ⟨alert, h1, _, _, _, h2, _⟩ :=
    (C4_one_alert_with_thirteen_labels sampleEnv
      (New sampleEnv "http://127.0.0.1:9093" reasonsFailed) podFailed sampleWorld
      (by decide)).1
  ⟨alert, h1, h2⟩

/-- C8: `fire` returns nil if and only if the alerts serialize, the post
completes without a transport error and the status code is exactly 200. A
serialization error and a transport error are returned as they are, and every
other status code, 201, 202 and 204 included, gives the error
`fire response <status>`. -/
theorem C8_fire_succeeds_iff_status_200 (env : Env) (a : AlertManager) (alerts : Alerts)
    (w : World) :
    ((fire env a alerts w).1 = none ↔
      ∃ (data : String) (resp : Response), env.marshal alerts = Except.ok data ∧
        env.post w.posts a.endpoint contentType data = Except.ok resp ∧
        resp.StatusCode = 200) ∧
    (∀ err : Error, env.marshal alerts = Except.error err →
      (fire env a alerts w).1 = some err) ∧
    (∀ (data : String) (err : Error), env.marshal alerts = Except.ok data →
      env.post w.posts a.endpoint contentType data = Except.error err →
      (fire env a alerts w).1 = some err) ∧
    (∀ (data : String) (resp : Response), env.marshal alerts = Except.ok data →
      env.post w.posts a.endpoint contentType data = Except.ok resp →
      resp.StatusCode ≠ 200 →
      (fire env a alerts w).1 = some ("fire response " ++ resp.Status)) ∧
    (∀ (data : String) (resp : Response), env.marshal alerts = Except.ok data →
      env.post w.posts a.endpoint contentType data = Except.ok resp →
      resp.StatusCode = 201 ∨ resp.StatusCode = 202 ∨ resp.StatusCode = 204 →
      (fire env a alerts w).1 ≠ none) := by
  have hposts : (w.record (Call.fire alerts)).posts = w.posts := rfl
  have e1 : ∀ err : Error, env.marshal alerts = Except.error err →
      (fire env a alerts w).1 = some err := by
    intro err hm
    simp [fire, hm]
  have e2 : ∀ (data : String) (err : Error), env.marshal alerts = Except.ok data →
      env.post w.posts a.endpoint contentType data = Except.error err →
      (fire env a alerts w).1 = some err := by
    intro data err hm hp
    simp [fire, hm, hposts, hp]
  have e3 : ∀ (data : String) (resp : Response), env.marshal alerts = Except.ok data →
      env.post w.posts a.endpoint contentType data = Except.ok resp →
      resp.StatusCode ≠ 200 →
      (fire env a alerts w).1 = some ("fire response " ++ resp.Status) := by
    intro data resp hm hp hs
    simp [fire, hm, hposts, hp, hs]
  refine ⟨?_, e1, e2, e3, ?_⟩
  · constructor
    · intro hnone
      cases hm : env.marshal alerts with
      | error err => rw [e1 err hm] at hnone; exact absurd hnone (by simp)
      | ok data =>
        cases hp : env.post w.posts a.endpoint contentType data with
        | error err => rw [e2 data err hm hp] at hnone; exact absurd hnone (by simp)
        | ok resp =>
          by_cases hs : resp.StatusCode = 200
          · exact ⟨data, resp, rfl, hp, hs⟩
          · rw [e3 data resp hm hp hs] at hnone; exact absurd hnone (by simp)
    · rintro ⟨data, resp, hm, hp, hs⟩
      simp [fire, hm, hposts, hp, hs]
  · intro data resp hm hp hs
    have : resp.StatusCode ≠ 200 := by
      rcases hs with h | h | h <;> rw [h] <;> decide
    rw [e3 data resp hm hp this]
    simp

/-- C8 at a concrete input: the first answer of the sample gateway is a 500,
so `fire` returns the error `fire response 500 Internal Server Error`. -/
theorem C8_fire_succeeds_iff_status_200_witness :
    (fire sampleEnv (New sampleEnv "http://127.0.0.1:9093" reasonsFailed)
      [alertOf podFailed] sampleWorld).1 =
      some "fire response 500 Internal Server Error" :=
  (C8_fire_succeeds_iff_status_200 sampleEnv
      (New sampleEnv "http://127.0.0.1:9093" reasonsFailed)
      [alertOf podFailed] sampleWorld).2.2.2.1
    "alertname=Pod Failed;namespace=ns1;name=pod-a;component=kubelet;host=node-1;reason=Failed;kind=Pod;message=;client=k8swatch;level=Warning;involvedObjectNamespace=ns1;involvedObjectName=pod-a;fieldPath="
    { StatusCode := 500, Status := "500 Internal Server Error" }
    rfl rfl (by decide)

/-! ## The claims on the worker -/

/-- C7: for a dequeued key that the cache reports absent without error,
`processItem` returns nil without invoking the handler (no `ObjectCreated`, no
`fire`, no post), and `processNextItem` treats the key as a success: it calls
`Forget(key)`, does not call `AddRateLimited(key)`, and returns true. -/
theorem C7_cache_miss_is_success (env : Env) (c : Controller) (w : World) (key : String)
    (q : WorkQueue) (hget : w.queue.Get = some (key, false, q))
    (herr : (w.indexer key).err = none) (habsent : (w.indexer key).found = false) :
    (processItem env c key w).1 = none ∧
    callsSince w (processItem env c key w).2 =
      [Call.getByKey key, Call.glogInfof "Event %s does not exist anymore"] ∧
    ∃ w2 : World, processNextItem env c w = some (true, w2) ∧
      callsSince w w2 =
        [Call.queueGet, Call.getByKey key,
         Call.glogInfof "Event %s does not exist anymore",
         Call.queueForget key, Call.queueDone key] ∧
      handled (callsSince w w2) = [] ∧
      firedAlerts (callsSince w w2) = [] ∧
      posted (callsSince w w2) = [] ∧
      Call.queueForget key ∈ callsSince w w2 ∧
      Call.queueAddRateLimited key ∉ callsSince w w2 ∧
      w2.queue.NumRequeues key = 0 := by
  have h1 := processItem_absent env c key w herr habsent
  have h2 := processItem_absent env c key (afterGet w q) herr habsent
  have hcalls : callsSince w
      { (processItem env c key (afterGet w q)).2 with
        queue := (q.Forget key).Done key
        trace := (processItem env c key (afterGet w q)).2.trace ++
          [Call.queueForget key, Call.queueDone key] } =
      [Call.queueGet, Call.getByKey key,
       Call.glogInfof "Event %s does not exist anymore",
       Call.queueForget key, Call.queueDone key] := by
    apply callsSince_append
    show (processItem env c key (afterGet w q)).2.trace ++ _ = _
    rw [h2]
    simp [afterGet]
  refine ⟨by rw [h1], ?_, _, processNextItem_success env c w key q hget (by rw [h2]), hcalls,
    ?_, ?_, ?_, ?_, ?_, ?_⟩
  · apply callsSince_append
    rw [h1]
  · rw [hcalls]; rfl
  · rw [hcalls]; rfl
  · rw [hcalls]; rfl
  · rw [hcalls]; simp
  · rw [hcalls]; simp
  · simp [WorkQueue.NumRequeues, WorkQueue.Done, WorkQueue.Forget]
    split <;> simp

/-- C7 at a concrete input: the key `ns1/pod-a` against an empty cache. -/
theorem C7_cache_miss_is_success_witness :
    (processItem sampleEnv sampleController "ns1/pod-a" emptyCacheWorld).1 = none :=
  (C7_cache_miss_is_success sampleEnv sampleController emptyCacheWorld "ns1/pod-a"
    { sampleQueue with queue := [], processing := insert "ns1/pod-a" ∅,
                       dirty := (({"ns1/pod-a"} : Finset String)).erase "ns1/pod-a" }
    rfl rfl rfl).1

/-- C9: the worker loop ends only on queue shutdown. `processNextItem` returns
false if and only if `queue.Get` reports shutdown, and then it touches no key:
its only call is `Get` and the queue is unchanged. For every dequeued key it
returns true whatever `processItem` returns and calls `Done(key)` exactly once,
as its last call and for no other key. A worker loop that has ended saw the
queue empty and shut down. -/
theorem C9_worker_stops_only_on_shutdown (env : Env) (c : Controller) (w : World) :
    ((∃ w2 : World, processNextItem env c w = some (false, w2)) ↔
      ∃ (key : String) (q : WorkQueue), w.queue.Get = some (key, true, q)) ∧
    (∀ (key : String) (q : WorkQueue), w.queue.Get = some (key, true, q) →
      ∃ w2 : World, processNextItem env c w = some (false, w2) ∧
        callsSince w w2 = [Call.queueGet] ∧ w2.queue = w.queue) ∧
    (∀ (key : String) (q : WorkQueue), w.queue.Get = some (key, false, q) →
      ∃ w2 : World, processNextItem env c w = some (true, w2) ∧
        (callsSince w w2).count (Call.queueDone key) = 1 ∧
        (callsSince w w2).getLast? = some (Call.queueDone key) ∧
        ∀ k2 : String, Call.queueDone k2 ∈ callsSince w w2 → k2 = key) ∧
    (∀ (fuel : Nat) (w2 : World), runWorker env c fuel w = Worker.exited w2 →
      w2.queue.queue = [] ∧ w2.queue.shuttingDown = true) := by
  have quitCase : ∀ (key : String) (q : WorkQueue), w.queue.Get = some (key, true, q) →
      ∃ w2 : World, processNextItem env c w = some (false, w2) ∧
        callsSince w w2 = [Call.queueGet] ∧ w2.queue = w.queue := by
    intro key q hg
    exact ⟨_, processNextItem_quit env c w key q hg, callsSince_append _ _ _ rfl, rfl⟩
  refine ⟨⟨?_, ?_⟩, quitCase, ?_, ?_⟩
  · rintro ⟨w2, h⟩
    cases hg : w.queue.Get with
    | none => simp [processNextItem_blocked env c w hg] at h
    | some r =>
      obtain ⟨key, quit, q⟩ := r
      cases quit with
      | true => exact ⟨key, q, rfl⟩
      | false =>
        obtain ⟨w1, _, _, hp, _⟩ := processNextItem_dequeued env c w key q hg
        simp [hp] at h
  · rintro ⟨key, q, hg⟩
    obtain ⟨w2, h, _⟩ := quitCase key q hg
    exact ⟨w2, h⟩
  · intro key q hg
    obtain ⟨w2, cs, tail, hp, ht, _, hall, htail⟩ := processNextItem_dequeued env c w key q hg
    have hcalls := callsSince_append w w2 _ ht
    have hcs : ∀ k2 : String, Call.queueDone k2 ∉ cs := fun k2 =>
      not_mem_of_all_isHandlerCall cs _ hall rfl
    have htl : ∀ k2 : String, Call.queueDone k2 ∉ tail := by
      intro k2
      rcases htail with h | h | ⟨err, h⟩ <;> rw [h] <;> simp
    refine ⟨w2, hp, ?_, ?_, ?_⟩
    · rw [hcalls]
      simp only [List.cons_append, List.count_cons, List.count_append,
        List.count_eq_zero.2 (hcs key), List.count_eq_zero.2 (htl key)]
      simp
    · rw [hcalls, List.getLast?_concat]
    · intro k2 hmem
      rw [hcalls] at hmem
      simp only [List.cons_append, List.mem_cons, List.mem_append, List.mem_singleton,
        reduceCtorEq, false_or] at hmem
      rcases hmem with (hm | hm) | hm
      · exact absurd hm (hcs k2)
      · exact absurd hm (htl k2)
      · simpa using hm
  · intro fuel w2 h
    exact runWorker_exited env c fuel w w2 h

/-- C9 at a concrete input: on the queue that is empty and shut down
`processNextItem` returns false after its `Get`. -/
theorem C9_worker_stops_only_on_shutdown_witness :
    ∃ w2 : World, processNextItem sampleEnv sampleController shutDownWorld = some (false, w2) ∧
      callsSince shutDownWorld w2 = [Call.queueGet] ∧ w2.queue = shutDownWorld.queue :=
  (C9_worker_stops_only_on_shutdown sampleEnv sampleController shutDownWorld).2.1
    "" shutDownWorld.queue rfl

/-- C3, as stated, fails: with the counter of `ns1/pod-a` at zero and a cache
lookup that fails on every attempt, the first four failures call
`AddRateLimited` and leave the counter at 4, and the fifth failure calls
`AddRateLimited` again (no `Forget`, no `HandleError`): the key is queued
again with its counter at 5. -/
theorem C3_fifth_failure_is_retried :
    brokenCacheWorld.queue.NumRequeues "ns1/pod-a" = 0 ∧
    retryCalls (runWorker sampleEnv sampleController 4 brokenCacheWorld).world.trace =
      [Call.queueAddRateLimited "ns1/pod-a", Call.queueAddRateLimited "ns1/pod-a",
       Call.queueAddRateLimited "ns1/pod-a", Call.queueAddRateLimited "ns1/pod-a"] ∧
    (runWorker sampleEnv sampleController 4 brokenCacheWorld).world.queue.NumRequeues
      "ns1/pod-a" = 4 ∧
    retryCalls (runWorker sampleEnv sampleController 5 brokenCacheWorld).world.trace =
      [Call.queueAddRateLimited "ns1/pod-a", Call.queueAddRateLimited "ns1/pod-a",
       Call.queueAddRateLimited "ns1/pod-a", Call.queueAddRateLimited "ns1/pod-a",
       Call.queueAddRateLimited "ns1/pod-a"] ∧
    (runWorker sampleEnv sampleController 5 brokenCacheWorld).world.queue.queue =
      ["ns1/pod-a"] ∧
    (runWorker sampleEnv sampleController 5 brokenCacheWorld).world.queue.NumRequeues
      "ns1/pod-a" = 5 := by
  decide

/-- C3, amended: a key whose counter starts at zero and whose processing fails
on every attempt is dropped at its 6th consecutive failure. Each of the first
five failures calls `AddRateLimited(key)`, which increments the counter by one
and queues the key again; the sixth failure calls `Forget(key)` and
`runtime.HandleError` and does not call `AddRateLimited(key)`, the counter is
back at zero, the queue is empty and the worker waits: the key does not recur
without a fresh notification. -/
theorem C3_dropped_at_sixth_failure (env : Env) (c : Controller) (w : World) (key : String)
    (err : Error)
    (hq : w.queue.queue = [key]) (hs : w.queue.shuttingDown = false)
    (h0 : w.queue.NumRequeues key = 0) (herr : (w.indexer key).err = some err) :
    (∀ n : Nat, n ≤ 5 → ∃ wn : World, runWorker env c n w = Worker.running wn ∧
      retryCalls (callsSince w wn) = List.replicate n (Call.queueAddRateLimited key) ∧
      wn.queue.NumRequeues key = n ∧ wn.queue.queue = [key]) ∧
    (∃ w5 w6 : World, runWorker env c 5 w = Worker.running w5 ∧
      processNextItem env c w5 = some (true, w6) ∧
      callsSince w5 w6 = abandonedAttempt key err ∧
      Call.queueAddRateLimited key ∉ callsSince w5 w6 ∧
      runWorker env c 6 w = Worker.running w6 ∧
      retryCalls (callsSince w w6) =
        List.replicate 5 (Call.queueAddRateLimited key) ++
          [Call.queueForget key, Call.handleError err] ∧
      w6.queue.NumRequeues key = 0 ∧ w6.queue.queue = [] ∧
      ∀ m : Nat, runWorker env c (6 + (m + 1)) w = Worker.waiting w6) ∧
    (∀ (v : World) (rest : List String), v.queue.queue = key :: rest →
      v.queue.shuttingDown = false → (v.indexer key).err = some err →
      ∃ v2 : World, processNextItem env c v = some (true, v2) ∧
        (v.queue.NumRequeues key < 5 →
          retryCalls (callsSince v v2) = [Call.queueAddRateLimited key] ∧
          v2.queue.NumRequeues key = v.queue.NumRequeues key + 1 ∧
          v2.queue.queue = rest ++ [key]) ∧
        (5 ≤ v.queue.NumRequeues key →
          retryCalls (callsSince v v2) = [Call.queueForget key, Call.handleError err] ∧
          v2.queue.NumRequeues key = 0 ∧ v2.queue.queue = rest)) := by
  have hf0 : w.queue.failures key = 0 := h0
  refine ⟨?_, ?_, ?_⟩
  rotate_left 2
  · intro v rest hvq hvs hverr
    by_cases hn : v.queue.failures key < 5
    · obtain ⟨v2, hp, ht, _, hq2, _, hf2⟩ := step_retry env c v key rest err hvq hvs hverr hn
      refine ⟨v2, hp, fun _ => ⟨?_, hf2, hq2⟩, fun h5 => ?_⟩
      · rw [callsSince_append v v2 _ ht]
        simp [retryCalls, retriedAttempt]
      · exact absurd hn (by
          have : 5 ≤ v.queue.failures key := h5
          omega)
    · obtain ⟨v2, hp, ht, _, hq2, _, hf2⟩ := step_giveup env c v key rest err hvq hverr hn
      refine ⟨v2, hp, fun h5 => absurd h5 hn, fun _ => ⟨?_, hf2, hq2⟩⟩
      rw [callsSince_append v v2 _ ht]
      simp [retryCalls, abandonedAttempt]
  · intro n hn
    obtain ⟨wn, cs, hrun, htn, hrc, hqn, _, _, hfn⟩ :=
      run_retries env c key err n w hq hs herr (by omega)
    refine ⟨wn, ?_, ?_, ?_, hqn⟩
    · have := hrun 0
      simpa [runWorker] using this
    · rw [callsSince_append w wn cs htn, hrc]
    · show wn.queue.failures key = n
      omega
  · obtain ⟨w5, cs, hrun, ht5, hrc, hq5, hs5, hi5, hf5⟩ :=
      run_retries env c key err 5 w hq hs herr (by omega)
    have herr5 : (w5.indexer key).err = some err := by rw [hi5]; exact herr
    obtain ⟨w6, hp, ht6, _, hq6, hs6, hf6⟩ :=
      step_giveup env c w5 key [] err hq5 herr5 (by omega)
    rw [hs5] at hs6
    have hc56 : callsSince w5 w6 = abandonedAttempt key err := callsSince_append w5 w6 _ ht6
    refine ⟨w5, w6, ?_, hp, hc56, ?_, ?_, ?_, hf6, hq6, ?_⟩
    · have := hrun 0
      simpa [runWorker] using this
    · rw [hc56]
      simp [abandonedAttempt]
    · have := hrun 1
      simpa [runWorker, hp] using this
    · have ht : w6.trace = w.trace ++ (cs ++ abandonedAttempt key err) := by
        rw [ht6, ht5, List.append_assoc]
      rw [callsSince_append w w6 _ ht, retryCalls_append, hrc]
      simp [retryCalls, abandonedAttempt]
    · intro m
      have h1 : 6 + (m + 1) = 5 + ((m + 1) + 1) := by omega
      rw [h1, hrun ((m + 1) + 1)]
      simp only [runWorker, hp]
      exact runWorker_waiting env c w6 m hq6 hs6

/-- C3, amended, at a concrete input: the key `ns1/pod-a` against a cache whose
lookups fail. -/
theorem C3_dropped_at_sixth_failure_witness :
    ∃ w5 w6 : World, runWorker sampleEnv sampleController 5 brokenCacheWorld =
        Worker.running w5 ∧
      processNextItem sampleEnv sampleController w5 = some (true, w6) ∧
      callsSince w5 w6 = abandonedAttempt "ns1/pod-a" "cache error" :=
  let ⟨w5, w6, h1, h2, h3, _⟩ :=
    (C3_dropped_at_sixth_failure sampleEnv sampleController brokenCacheWorld "ns1/pod-a"
      "cache error" rfl rfl rfl rfl).2.1
  ⟨w5, w6, h1, h2, h3⟩

/-- C2, as stated, fails: the failed pod passes the filter of the policy
`reasons: ["Failed"]` and the gateway answers the post with HTTP 500, so `fire`
returns an error; yet `processItem` returns nil, and a worker facing a gateway
that answers 500 three times and then 200 makes one post and one `Forget`, and
no `AddRateLimited` at all. -/
theorem C2_failed_post_is_forgotten :
    (ok1 sampleEnv sampleController.eventHandler podFailed ||
      ok2 sampleEnv sampleController.eventHandler podFailed ||
      ok3 sampleEnv sampleController.eventHandler podFailed) = true ∧
    (fire sampleEnv sampleController.eventHandler [alertOf podFailed] sampleWorld).1 =
      some "fire response 500 Internal Server Error" ∧
    (processItem sampleEnv sampleController "ns1/pod-a" sampleWorld).1 = none ∧
    retryCalls (runWorker sampleEnv sampleController 4 sampleWorld).world.trace =
      [Call.queueForget "ns1/pod-a"] ∧
    (posted (runWorker sampleEnv sampleController 4 sampleWorld).world.trace).length = 1 ∧
    retryCalls (runWorker sampleEnv sampleController 4 sampleWorld).world.trace ≠
      [Call.queueAddRateLimited "ns1/pod-a", Call.queueAddRateLimited "ns1/pod-a",
       Call.queueAddRateLimited "ns1/pod-a", Call.queueForget "ns1/pod-a"] := by
  decide

/-- C2, amended: for a forward-eligible event, when the gateway answers the
post with a status other than 200 or the transport fails, `fire` returns an
error to `ObjectCreated`, which logs it and returns nothing. The failure does
not reach the worker: `processItem` returns nil, and `processNextItem` calls
`Forget(key)` and not `AddRateLimited(key)`. The key is not queued again, so
whatever the gateway would answer later (500 twice more and then 200, say)
there is one post and one `Forget`. -/
theorem C2_handler_failure_not_propagated (env : Env) (c : Controller) (w : World)
    (key : String) (rest : List String) (e : Event) (data : String)
    (hq : w.queue.queue = key :: rest) (hs : w.queue.shuttingDown = false)
    (hfound : w.indexer key = { item := Obj.event e, found := true, err := none })
    (hpass : (ok1 env c.eventHandler e || ok2 env c.eventHandler e ||
      ok3 env c.eventHandler e) = true)
    (hm : env.marshal [alertOf e] = Except.ok data)
    (hbad : ∀ resp : Response,
      env.post w.posts c.eventHandler.endpoint contentType data = Except.ok resp →
      resp.StatusCode ≠ 200) :
    (fire env c.eventHandler [alertOf e] w).1 ≠ none ∧
    (processItem env c key w).1 = none ∧
    ∃ w2 : World, processNextItem env c w = some (true, w2) ∧
      callsSince w w2 =
        [Call.queueGet, Call.getByKey key, Call.objectCreated (Obj.event e),
         Call.fire [alertOf e],
         Call.httpPost c.eventHandler.endpoint contentType data,
         Call.glogErrorf "failed to send alert %v to %s",
         Call.queueForget key, Call.queueDone key] ∧
      retryCalls (callsSince w w2) = [Call.queueForget key] ∧
      Call.queueAddRateLimited key ∉ callsSince w w2 ∧
      w2.queue.NumRequeues key = 0 ∧ w2.queue.queue = rest ∧
      (rest = [] → ∀ m : Nat, runWorker env c (m + 2) w = Worker.waiting w2) := by
  have hfire : ∀ v : World, v.posts = w.posts →
      (fire env c.eventHandler [alertOf e] v).1.isSome = true := by
    intro v hv
    have h1 : (v.record (Call.fire [alertOf e])).posts = w.posts := hv
    simp only [fire, h1, hm]
    cases hp : env.post w.posts c.eventHandler.endpoint contentType data with
    | error err => simp [hp]
    | ok resp => simp [hp, hbad resp hp]
  have herr0 : (w.indexer key).err = none := by rw [hfound]
  have hf0 : (w.indexer key).found = true := by rw [hfound]
  have hitem : (w.indexer key).item = Obj.event e := by rw [hfound]
  obtain ⟨q, hg, hqr, hqs, _, _, hdirty⟩ := Get_cons_facts w.queue key rest hq
  rw [hs] at hqs
  have hpi := processItem_found env c key (afterGet w q) herr0 hf0
  have hitem2 : ((afterGet w q).indexer key).item = Obj.event e := hitem
  rw [hitem2] at hpi
  have hec : eventCalls env c.eventHandler e ((afterGet w q).record (Call.getByKey key)) =
      [Call.objectCreated (Obj.event e), Call.fire [alertOf e],
       Call.httpPost c.eventHandler.endpoint contentType data,
       Call.glogErrorf "failed to send alert %v to %s"] := by
    unfold eventCalls
    rw [if_pos hpass, hm,
      hfire (((afterGet w q).record (Call.getByKey key)).record
        (Call.objectCreated (Obj.event e))) rfl]
    rfl
  obtain ⟨w2, hp, ht2, hq2⟩ : ∃ w2 : World, processNextItem env c w = some (true, w2) ∧
      w2.trace = (processItem env c key (afterGet w q)).2.trace ++
        [Call.queueForget key, Call.queueDone key] ∧
      w2.queue = (q.Forget key).Done key :=
    ⟨_, processNextItem_success env c w key q hg (by rw [hpi]), rfl, rfl⟩
  have hcalls : callsSince w w2 =
      [Call.queueGet, Call.getByKey key, Call.objectCreated (Obj.event e),
       Call.fire [alertOf e],
       Call.httpPost c.eventHandler.endpoint contentType data,
       Call.glogErrorf "failed to send alert %v to %s",
       Call.queueForget key, Call.queueDone key] := by
    apply callsSince_append
    rw [ht2, hpi]
    simp only []
    rw [ObjectCreated_event_trace, hec]
    simp [afterGet, World.record]
  have hqq : w2.queue.queue = rest := by
    rw [hq2]
    simp [WorkQueue.Forget, WorkQueue.Done, hdirty, hqr]
  have hss : w2.queue.shuttingDown = false := by
    rw [hq2]
    simp [WorkQueue.Forget, WorkQueue.Done, hdirty, hqs]
  refine ⟨?_, ?_, w2, hp, hcalls, ?_, ?_, ?_, hqq, ?_⟩
  · intro hnone
    have := hfire w rfl
    rw [hnone] at this
    exact absurd this (by decide)
  · rw [processItem_found env c key w herr0 hf0]
  · rw [hcalls]
    simp [retryCalls]
  · rw [hcalls]
    simp
  · rw [hq2]
    simp [WorkQueue.NumRequeues, WorkQueue.Forget, WorkQueue.Done, hdirty]
  · intro hrest m
    rw [hrest] at hqq
    simp only [runWorker, hp]
    exact runWorker_waiting env c w2 m hqq hss

/-- C2, amended, at a concrete input: the failed pod, the policy
`reasons: ["Failed"]` and the gateway that answers 500 three times and then
200. -/
theorem C2_handler_failure_not_propagated_witness :
    ∃ w2 : World, processNextItem sampleEnv sampleController sampleWorld = some (true, w2) ∧
      retryCalls (callsSince sampleWorld w2) = [Call.queueForget "ns1/pod-a"] ∧
      ∀ m : Nat, runWorker sampleEnv sampleController (m + 2) sampleWorld =
        Worker.waiting w2 :=
  let ⟨w2, h1, _, h2, _, _, _, h3⟩ :=
    (C2_handler_failure_not_propagated sampleEnv sampleController sampleWorld "ns1/pod-a" []
      podFailed
      "alertname=Pod Failed;namespace=ns1;name=pod-a;component=kubelet;host=node-1;reason=Failed;kind=Pod;message=;client=k8swatch;level=Warning;involvedObjectNamespace=ns1;involvedObjectName=pod-a;fieldPath="
      rfl rfl rfl (by decide) rfl
      (fun resp h => by
        have h2 : (Except.ok { StatusCode := 500, Status := "500 Internal Server Error" } :
            Except Error Response) = Except.ok resp := h
        injection h2 with h3
        rw [← h3]
        decide)).2.2
  ⟨w2, h1, h2, h3 rfl⟩

end K8swatch
